import Mathlib

/-!
Shallow embedding of the erasure-coded storage-pool simulator
(`ErasureCodedStorage`), primarily the `VDSimm2-5-26.py` variant
(484 drives, 11 Dboxes of 44 drives; 38 data + 3 local parity +
1 global parity + 2 spares per Dbox), together with the
`check_data_integrity` routine of the `VDATASIM-v2.1.py` variant
where the two differ.

Modelling conventions:
* A drive's byte contents are modelled at chunk granularity: a `Disk`
  maps a drive id to a chunk slot to a byte offset within the chunk to
  the byte value.  Chunk slot `k` of drive `e` is the byte range
  `[k * chunk_size, (k+1) * chunk_size)` of the backing file of drive `e`.
* A byte buffer (`bytes` in Python) is a `Buf`: its length paired with an
  indexing function; reading past the end yields 0 (`bufGet`), matching
  `ljust` zero padding.
* Every Python file write of a whole drive is `writeDrive`; the parity
  and rebuild loops read the evolving state, exactly as the Python code
  re-reads the drive files it has just written.
* The `len(chunk) == chunk_size` guards in the Python loops are always
  true for the reads those loops perform (every drive file read there
  holds at least as many chunks as are scanned), so reads are total here.
-/

/-- Byte buffer: length plus indexing function (`bytes` object). -/
abbrev Buf := Nat × (Nat → Nat)

/-- Read byte `i` of a buffer; 0 past the end (zero padding / `ljust`). -/
def bufGet (b : Buf) (i : Nat) : Nat :=
  if i < b.1 then b.2 i else 0

/-- Concatenation of two byte buffers. -/
def bufAppend (a b : Buf) : Buf :=
  (a.1 + b.1, fun i => if i < a.1 then a.2 i else b.2 (i - a.1))

/-- Storage state: drive id → chunk slot → byte offset → byte value. -/
abbrev Disk := Nat → Nat → Nat → Nat

/-- `chunk_size = 4096`. -/
def chunkSize : Nat := 4096

/-- `drive_size = 1024 * 1024`. -/
def driveSize : Nat := 1024 * 1024

/-- Chunk slots per drive, `drive_size // chunk_size = 256`. -/
def slotsPerDrive : Nat := driveSize / chunkSize

/-- `calculate_parity`: XOR fold of a list of byte values
(pointwise instance of the chunk-level fold, which starts from a zero
buffer and xors each chunk in). -/
def xorFold (l : List Nat) : Nat := l.foldl Nat.xor 0

theorem foldl_xor_eq (l : List Nat) (x : Nat) :
    l.foldl Nat.xor x = x ^^^ xorFold l := by
  induction l generalizing x with
  | nil => simp [xorFold]
  | cons a l ih =>
    show l.foldl Nat.xor (x ^^^ a) = x ^^^ xorFold (a :: l)
    rw [ih (x ^^^ a)]
    show x ^^^ a ^^^ xorFold l = x ^^^ List.foldl Nat.xor (0 ^^^ a) l
    rw [ih (0 ^^^ a), Nat.zero_xor, Nat.xor_assoc]

theorem xorFold_cons (a : Nat) (l : List Nat) :
    xorFold (a :: l) = a ^^^ xorFold l := by
  show List.foldl Nat.xor (0 ^^^ a) l = a ^^^ xorFold l
  rw [foldl_xor_eq, Nat.zero_xor]

theorem xorFold_map_zero (l : List Nat) :
    xorFold (l.map (fun _ => (0 : Nat))) = 0 := by
  induction l with
  | nil => rfl
  | cons a l ih => rw [List.map_cons, xorFold_cons, ih, Nat.zero_xor]

/-- Removing one occurrence of `a` from a duplicate-free list splits the
XOR fold: `fold l = f a ^^^ fold (l without a)`. -/
theorem xorFold_map_split (l : List Nat) (f : Nat → Nat) (a : Nat)
    (hnd : l.Nodup) (ha : a ∈ l) :
    xorFold (l.map f) =
      f a ^^^ xorFold ((l.filter (fun e => e != a)).map f) := by
  induction l with
  | nil => cases ha
  | cons b l ih =>
    rcases List.nodup_cons.mp hnd with ⟨hb, hnd'⟩
    rcases List.mem_cons.mp ha with rfl | ha'
    · have hfilter : l.filter (fun e => e != a) = l := by
        apply List.filter_eq_self.mpr
        intro x hx
        simp only [bne_iff_ne, ne_eq, decide_eq_true_eq]
        intro h; exact hb (h ▸ hx)
      have hfc : (a :: l).filter (fun e => e != a) = l := by
        rw [List.filter_cons]; simp [hfilter]
      rw [hfc, List.map_cons, xorFold_cons]
    · have hba : (b != a) = true := by
        simp only [bne_iff_ne, ne_eq, decide_eq_true_eq]
        intro h; exact hb (h ▸ ha')
      have hfc : (b :: l).filter (fun e => e != a) =
          b :: l.filter (fun e => e != a) := by
        rw [List.filter_cons]; simp [hba]
      rw [hfc, List.map_cons, xorFold_cons, List.map_cons,
        xorFold_cons, ih hnd' ha']
      rw [← Nat.xor_assoc, Nat.xor_comm (f b) (f a), Nat.xor_assoc]

/-- Membership in `List.range'` (step 1) as two inequalities. -/
theorem mem_range'_iff (x s n : Nat) :
    x ∈ List.range' s n ↔ s ≤ x ∧ x < s + n := by
  induction n generalizing s with
  | zero => simp
  | succ n ih =>
    rw [List.range'_succ, List.mem_cons, ih]
    omega

/-! ## Topology (`_configure_dboxes`, VDSimm2-5-26 / VDATASIM-v2.1)

11 Dboxes of 44 drives; within Dbox `d` (base id `44*d`): data drives at
offsets 0–37, local parity at 38–40, global parity at 41, spares at 42–43;
the data drives are split into 3 local groups of 13, 13 and 12 drives,
group `g` owning local parity drive `44*d + 38 + g`. -/

/-- Data drives of Dbox `d` (`dbox['data_drives']`). -/
def dboxData (d : Nat) : List Nat := List.range' (44 * d) 38

/-- Local parity drives of Dbox `d` (`dbox['local_parity_drives']`). -/
def dboxLocalParity (d : Nat) : List Nat := List.range' (44 * d + 38) 3

/-- Global parity drive of Dbox `d` (`dbox['global_parity_drive']`). -/
def globalP (d : Nat) : Nat := 44 * d + 41

/-- Spare drives of Dbox `d` (`dbox['spare_drives']`). -/
def dboxSpares (d : Nat) : List Nat := [44 * d + 42, 44 * d + 43]

/-- All drives of Dbox `d` (`dbox['all_drives']`). -/
def dboxAll (d : Nat) : List Nat := List.range' (44 * d) 44

/-- Data drives of local group `g` of Dbox `d`
(`data_drives[13*g : min (13*g+13) 38]`). -/
def groupData (p : Nat × Nat) : List Nat :=
  List.range' (44 * p.1 + 13 * p.2) (min (13 * p.2 + 13) 38 - 13 * p.2)

/-- Local parity drive of group `g` of Dbox `d` (`group['parity_drive']`). -/
def localP (p : Nat × Nat) : Nat := 44 * p.1 + 38 + p.2

/-- `get_all_data_drives`: data drives of every Dbox, in Dbox order. -/
def allDataDrives : List Nat := (List.range 11).flatMap (fun d => dboxData d)

/-- The (Dbox, group) pairs in the order the nested
`for dbox in self.dboxes: for group in dbox['local_groups']` loops visit. -/
def allGroups : List (Nat × Nat) :=
  (List.range 11).flatMap (fun d => (List.range 3).map (fun g => (d, g)))

/-- The spare drives in the order the spare-clearing loop visits them. -/
def allSpares : List Nat := (List.range 11).flatMap (fun d => dboxSpares d)

/-- A drive id with the Data role: inside the pool and at a data offset
within its Dbox. -/
def isData (x : Nat) : Prop := x < 484 ∧ x % 44 < 38

instance (x : Nat) : Decidable (isData x) := by unfold isData; infer_instance

theorem mem_allDataDrives_iff (x : Nat) :
    x ∈ allDataDrives ↔ isData x := by
  simp only [allDataDrives, dboxData, List.mem_flatMap, List.mem_range, mem_range'_iff, isData]
  constructor
  · rintro ⟨d, hd, h1, h2⟩; omega
  · rintro ⟨h1, h2⟩; exact ⟨x / 44, by omega, by omega, by omega⟩

theorem mem_groupData (x : Nat) (p : Nat × Nat) :
    x ∈ groupData p ↔
      44 * p.1 + 13 * p.2 ≤ x ∧ x < 44 * p.1 + min (13 * p.2 + 13) 38 := by
  rw [groupData, mem_range'_iff]; omega

theorem mem_allGroups (p : Nat × Nat) :
    p ∈ allGroups ↔ p.1 < 11 ∧ p.2 < 3 := by
  rcases p with ⟨d, g⟩
  simp [allGroups, List.mem_flatMap]

theorem groupData_isData (p : Nat × Nat) (hp : p ∈ allGroups) (x : Nat)
    (hx : x ∈ groupData p) : isData x := by
  rw [mem_allGroups] at hp
  rw [mem_groupData] at hx
  have hub : x < 44 * p.1 + 38 := by omega
  have hlb : 44 * p.1 ≤ x := by omega
  constructor
  · omega
  · have : x % 44 = x - 44 * p.1 := by omega
    omega

theorem groupData_nodup (p : Nat × Nat) : (groupData p).Nodup := by
  rw [groupData]
  apply List.nodup_range'
  exact Nat.zero_lt_one

/-! ## Whole-drive writes and write stages

Each iteration of the data-distribution, parity and spare loops opens one
drive file and overwrites its contents (`open(filepath,'wb'); f.write(...)`).
`writeDrive` is one such write; `runStage` is one loop: it folds over the
loop's items, each item writing drive `tgt a` with contents `cnt dk a`
computed from the state `dk` reached so far (the Python code re-reads
drive files, i.e. the evolving state). -/

/-- Overwrite the whole contents of drive `e` with `c`. -/
def writeDrive (dk : Disk) (e : Nat) (c : Nat → Nat → Nat) : Disk :=
  fun x => if x = e then c else dk x

/-- One write loop: for each `a` in `l`, overwrite drive `tgt a` with
contents `cnt dk a` read from the current state. -/
def runStage {α : Type} (tgt : α → Nat) (cnt : Disk → α → Nat → Nat → Nat)
    (l : List α) (dk : Disk) : Disk :=
  l.foldl (fun dk a => writeDrive dk (tgt a) (cnt dk a)) dk

theorem runStage_preserve {α : Type} (tgt : α → Nat)
    (cnt : Disk → α → Nat → Nat → Nat) (l : List α) (dk : Disk) (x : Nat)
    (h : ∀ a ∈ l, tgt a ≠ x) : runStage tgt cnt l dk x = dk x := by
  induction l generalizing dk with
  | nil => rfl
  | cons b l ih =>
    show runStage tgt cnt l (writeDrive dk (tgt b) (cnt dk b)) x = dk x
    rw [ih _ (fun a ha => h a (List.mem_cons_of_mem b ha))]
    unfold writeDrive
    rw [if_neg]
    intro hx
    exact h b (List.mem_cons_self b l) (hx ▸ rfl)

/-- A stage whose targets all lie outside a class `good` of drives and
whose per-item contents read only `good` drives writes, on drive `tgt a`
for any item `a` of the (target-duplicate-free) list, exactly the contents
computed from the stage's input state. -/
theorem runStage_spec {α : Type} (good : Nat → Prop) (tgt : α → Nat)
    (cnt : Disk → α → Nat → Nat → Nat) (l : List α)
    (htg : ∀ b ∈ l, ∀ y, good y → tgt b ≠ y)
    (hcnt : ∀ b ∈ l, ∀ dk dk' : Disk, (∀ y, good y → dk y = dk' y) →
      cnt dk b = cnt dk' b)
    (hnd : (l.map tgt).Nodup) (a : α) (ha : a ∈ l) (dk : Disk) :
    runStage tgt cnt l dk (tgt a) = cnt dk a := by
  induction l generalizing dk with
  | nil => cases ha
  | cons b l ih =>
    rw [List.map_cons, List.nodup_cons] at hnd
    rcases List.mem_cons.mp ha with rfl | ha'
    · show runStage tgt cnt l (writeDrive dk (tgt a) (cnt dk a)) (tgt a) = cnt dk a
      rw [runStage_preserve]
      · unfold writeDrive; rw [if_pos rfl]
      · intro c hc hcc
        exact hnd.1 (hcc ▸ List.mem_map_of_mem tgt hc)
    · show runStage tgt cnt l (writeDrive dk (tgt b) (cnt dk b)) (tgt a) = cnt dk a
      rw [ih (fun c hc => htg c (List.mem_cons_of_mem b hc))
        (fun c hc => hcnt c (List.mem_cons_of_mem b hc)) hnd.2 ha']
      apply hcnt a (List.mem_cons_of_mem b ha')
      intro y hy
      unfold writeDrive
      rw [if_neg]
      intro hyb
      exact htg b (List.mem_cons_self b l) y hy (hyb ▸ rfl)

/-! ## Normal-mode write (`_write_data_normal_mode`, VDSimm2-5-26)

The data is distributed over the online data drives, `chunks_per_drive`
chunks each (sequential chunk ranges, zero-padded), then local parity is
recomputed for every group, then the weighted global parity for every
Dbox, then the hot spares are cleared. -/

/-- The online data drives, in `get_all_data_drives` order
(`available_drives = [d for d in data_drives if self.drive_status[d]]`). -/
def availableDrives (status : Nat → Bool) : List Nat :=
  allDataDrives.filter status

/-- `chunks_per_drive = ceil(num_chunks / len(available_drives))`. -/
def chunksPerDrive (status : Nat → Bool) (numChunks : Nat) : Nat :=
  (numChunks + (availableDrives status).length - 1) / (availableDrives status).length

/-- Byte `b` of chunk `i` of the input buffer. -/
def dataChunkByte (data : Buf) (i b : Nat) : Nat :=
  bufGet data (i * chunkSize + b)

/-- Contents written to the `j`-th available drive: its `chunks_per_drive`
sequential chunks (global chunk indices `j*cpd + k`), zero chunks once the
input is exhausted, and `ljust` zero padding to the drive size. -/
def dataDriveContents (data : Buf) (cpd numChunks j : Nat) : Nat → Nat → Nat :=
  fun k b => if k < cpd ∧ j * cpd + k < numChunks then
    dataChunkByte data (j * cpd + k) b else 0

/-- Chunk contents `_calculate_local_parity_group` writes to the group's
parity drive: per scanned slot, the XOR fold over the group's online data
drives; `ljust` zeros beyond. -/
def localParityContents (status : Nat → Bool) (cpd : Nat) (dk : Disk)
    (p : Nat × Nat) : Nat → Nat → Nat :=
  fun k b => if k < cpd then
    xorFold (((groupData p).filter status).map (fun e => dk e k b)) else 0

/-- Chunk contents `_calculate_global_parity_dbox` writes: per scanned
slot, the XOR fold over the Dbox's online data drives of the weighted
bytes `(byte * ((drive_id % 255) + 1)) % 256` (the product is taken in
uint16 in the source, so it is the exact product before the modulo). -/
def globalParityContents (status : Nat → Bool) (cpd : Nat) (dk : Disk)
    (d : Nat) : Nat → Nat → Nat :=
  fun k b => if k < cpd then
    xorFold (((dboxData d).filter status).map
      (fun e => dk e k b * (e % 255 + 1) % 256)) else 0

/-- The data-distribution loop. -/
def normalDataStage (status : Nat → Bool) (data : Buf) (dk : Disk) : Disk :=
  runStage Prod.snd
    (fun _ je => dataDriveContents data
      (chunksPerDrive status (data.1 / chunkSize)) (data.1 / chunkSize) je.1)
    (availableDrives status).enum dk

/-- The local-parity loop over every group of every Dbox. -/
def normalLocalParityStage (status : Nat → Bool) (cpd : Nat) (dk : Disk) : Disk :=
  runStage localP (fun dk p => localParityContents status cpd dk p) allGroups dk

/-- The global-parity loop over every Dbox. -/
def normalGlobalParityStage (status : Nat → Bool) (cpd : Nat) (dk : Disk) : Disk :=
  runStage globalP (fun dk d => globalParityContents status cpd dk d)
    (List.range 11) dk

/-- The spare-clearing loop. -/
def sparesClearStage (dk : Disk) : Disk :=
  runStage id (fun _ _ => fun _ _ => 0) allSpares dk

/-- State of all drives after a completed Normal-mode write. -/
def normalWriteDisk (status : Nat → Bool) (data : Buf) (dk : Disk) : Disk :=
  sparesClearStage
    (normalGlobalParityStage status (chunksPerDrive status (data.1 / chunkSize))
      (normalLocalParityStage status (chunksPerDrive status (data.1 / chunkSize))
        (normalDataStage status data dk)))

/-- `_write_data_normal_mode`: fails (touching nothing) when no data drive
is online, otherwise rewrites the drives as `normalWriteDisk`. -/
def writeDataNormalMode (status : Nat → Bool) (data : Buf) (dk : Disk) :
    Bool × Disk :=
  if (availableDrives status).length = 0 then (false, dk)
  else (true, normalWriteDisk status data dk)

theorem localP_not_isData (p : Nat × Nat) (hp : p ∈ allGroups) :
    ¬ isData (localP p) := by
  rw [mem_allGroups] at hp
  rintro ⟨-, h2⟩
  rw [localP] at h2
  have : (44 * p.1 + 38 + p.2) % 44 = 38 + p.2 := by omega
  omega

theorem globalP_not_isData (d : Nat) (hd : d < 11) : ¬ isData (globalP d) := by
  rintro ⟨-, h2⟩
  rw [globalP] at h2
  have : (44 * d + 41) % 44 = 41 := by omega
  omega

theorem spares_not_isData (s : Nat) (hs : s ∈ allSpares) : ¬ isData s := by
  rintro ⟨-, h2⟩
  simp only [allSpares, dboxSpares, List.mem_flatMap, List.mem_range,
    List.mem_cons, List.mem_singleton] at hs
  obtain ⟨d, hd, hs⟩ := hs
  rcases hs with rfl | rfl | h
  · have : (44 * d + 42) % 44 = 42 := by omega
    omega
  · have : (44 * d + 43) % 44 = 43 := by omega
    omega
  · cases h

theorem allDataDrives_nodup : allDataDrives.Nodup := by
  rw [allDataDrives, List.nodup_flatMap]
  constructor
  · intro d hd
    rw [dboxData]
    apply List.nodup_range'
    exact Nat.zero_lt_one
  · apply (List.pairwise_lt_range 11).imp
    intro a b hab
    simp only [Function.onFun]
    intro x hxa hxb
    rw [dboxData, mem_range'_iff] at hxa hxb
    omega

theorem availableDrives_nodup (status : Nat → Bool) :
    (availableDrives status).Nodup :=
  allDataDrives_nodup.filter status

theorem available_isData (status : Nat → Bool) (x : Nat)
    (hx : x ∈ availableDrives status) : isData x :=
  (mem_allDataDrives_iff x).mp (List.mem_of_mem_filter hx)

/-- Every drive that `normalWriteDisk` touches after the data stage is a
parity or spare drive, so data drives keep their data-stage contents. -/
theorem normalWriteDisk_data_drive (status : Nat → Bool) (data : Buf)
    (dk : Disk) (x : Nat) (hx : isData x) :
    normalWriteDisk status data dk x = normalDataStage status data dk x := by
  unfold normalWriteDisk sparesClearStage normalGlobalParityStage
    normalLocalParityStage
  rw [runStage_preserve]
  · rw [runStage_preserve]
    · rw [runStage_preserve]
      intro p hp hcc
      exact localP_not_isData p hp (hcc ▸ hx)
    · intro d hd hcc
      exact globalP_not_isData d (List.mem_range.mp hd) (hcc ▸ hx)
  · intro s hs hcc
    apply spares_not_isData s hs
    have hsx : s = x := hcc
    rw [hsx]
    exact hx

theorem allGroups_localP_nodup : (allGroups.map localP).Nodup := by decide

theorem range11_globalP_nodup : ((List.range 11).map globalP).Nodup := by decide

theorem localParityContents_congr (status : Nat → Bool) (cpd : Nat)
    (p : Nat × Nat) (hp : p ∈ allGroups) (dk dk' : Disk)
    (h : ∀ y, isData y → dk y = dk' y) :
    localParityContents status cpd dk p = localParityContents status cpd dk' p := by
  funext k b
  unfold localParityContents
  rcases Nat.decLt k cpd with hk | hk
  · rw [if_neg hk, if_neg hk]
  · rw [if_pos hk, if_pos hk]
    congr 1
    apply List.map_congr_left
    intro e he
    rw [h e (groupData_isData p hp e (List.mem_of_mem_filter he))]

theorem globalParityContents_congr (status : Nat → Bool) (cpd : Nat)
    (d : Nat) (hd : d < 11) (dk dk' : Disk)
    (h : ∀ y, isData y → dk y = dk' y) :
    globalParityContents status cpd dk d = globalParityContents status cpd dk' d := by
  funext k b
  unfold globalParityContents
  rcases Nat.decLt k cpd with hk | hk
  · rw [if_neg hk, if_neg hk]
  · rw [if_pos hk, if_pos hk]
    congr 1
    apply List.map_congr_left
    intro e he
    have he' : isData e := by
      have := List.mem_of_mem_filter he
      rw [dboxData, mem_range'_iff] at this
      constructor
      · omega
      · have : e % 44 = e - 44 * d := by omega
        omega
    rw [h e he']

/-- After a Normal-mode write, the group's local parity drive holds, on
every scanned slot, the contents computed from the data-stage state. -/
theorem normalWriteDisk_localP (status : Nat → Bool) (data : Buf) (dk : Disk)
    (d g : Nat) (hd : d < 11) (hg : g < 3) :
    normalWriteDisk status data dk (localP (d, g)) =
      localParityContents status (chunksPerDrive status (data.1 / chunkSize))
        (normalDataStage status data dk) (d, g) := by
  have hmem : (d, g) ∈ allGroups := (mem_allGroups _).mpr ⟨hd, hg⟩
  unfold normalWriteDisk sparesClearStage normalGlobalParityStage
  rw [runStage_preserve]
  · rw [runStage_preserve]
    · unfold normalLocalParityStage
      apply runStage_spec isData
      · intro p hp y hy hcc
        exact localP_not_isData p hp (hcc ▸ hy)
      · intro p hp dk1 dk2 hagree
        exact localParityContents_congr status _ p hp dk1 dk2 hagree
      · exact allGroups_localP_nodup
      · exact hmem
    · intro d' hd' hcc
      rw [globalP, localP] at hcc
      rw [mem_allGroups] at hmem
      omega
  · intro s hs hcc
    simp only [allSpares, dboxSpares, List.mem_flatMap, List.mem_range,
      List.mem_cons, List.mem_singleton] at hs
    obtain ⟨d', hd', hs⟩ := hs
    rw [mem_allGroups] at hmem
    rcases hs with rfl | rfl | h
    · rw [localP] at hcc; simp only [id] at hcc; omega
    · rw [localP] at hcc; simp only [id] at hcc; omega
    · cases h

/-- C1: after any completed Normal-mode write (`_write_data_normal_mode`
followed by its parity and spare passes), with drive statuses unchanged
since the pass began, every local group's parity drive holds, for every
chunk index scanned during the pass and every byte of the chunk, the
bytewise XOR of that chunk across the group's online data drives. -/
theorem C1_local_parity_invariant (status : Nat → Bool) (data : Buf)
    (dk : Disk) (hcompleted : availableDrives status ≠ [])
    (d g k b : Nat) (hd : d < 11) (hg : g < 3)
    (hk : k < chunksPerDrive status (data.1 / chunkSize)) (hb : b < chunkSize) :
    xorFold (((groupData (d, g)).filter status).map
        (fun e => normalWriteDisk status data dk e k b)) =
      normalWriteDisk status data dk (localP (d, g)) k b := by
  rw [normalWriteDisk_localP status data dk d g hd hg]
  unfold localParityContents
  rw [if_pos hk]
  congr 1
  apply List.map_congr_left
  intro e he
  have hD : isData e := groupData_isData (d, g) ((mem_allGroups _).mpr ⟨hd, hg⟩)
    e (List.mem_of_mem_filter he)
  exact congrFun (congrFun (normalWriteDisk_data_drive status data dk e hD) k) b

set_option maxRecDepth 40000 in
/-- C1 witness: a concrete completed write (all 484 drives online, a
one-chunk input of 5-bytes), group 0 of Dbox 0, chunk 0, byte 0. -/
theorem C1_local_parity_invariant_witness :
    availableDrives (fun _ => true) ≠ [] ∧
    xorFold (((groupData (0, 0)).filter (fun _ => true)).map
        (fun e => normalWriteDisk (fun _ => true) (4096, fun _ => 5)
          (fun _ _ _ => 0) e 0 0)) =
      normalWriteDisk (fun _ => true) (4096, fun _ => 5)
        (fun _ _ _ => 0) (localP (0, 0)) 0 0 :=
  ⟨by decide,
   C1_local_parity_invariant (fun _ => true) (4096, fun _ => 5) (fun _ _ _ => 0)
     (by decide) 0 0 0 0 (by decide) (by decide) (by decide) (by decide)⟩

theorem dboxData_isData (d : Nat) (hd : d < 11) (x : Nat)
    (hx : x ∈ dboxData d) : isData x := by
  rw [dboxData, mem_range'_iff] at hx
  constructor
  · omega
  · have : x % 44 = x - 44 * d := by omega
    omega

theorem localStage_data_drive (status : Nat → Bool) (cpd : Nat) (dk : Disk)
    (x : Nat) (hx : isData x) :
    normalLocalParityStage status cpd dk x = dk x := by
  unfold normalLocalParityStage
  apply runStage_preserve
  intro p hp hcc
  exact localP_not_isData p hp (hcc ▸ hx)

/-- After a Normal-mode write, the Dbox's global parity drive holds, on
every scanned slot, the weighted contents computed from the state after
the local-parity pass. -/
theorem normalWriteDisk_globalP (status : Nat → Bool) (data : Buf) (dk : Disk)
    (d : Nat) (hd : d < 11) :
    normalWriteDisk status data dk (globalP d) =
      globalParityContents status (chunksPerDrive status (data.1 / chunkSize))
        (normalLocalParityStage status (chunksPerDrive status (data.1 / chunkSize))
          (normalDataStage status data dk)) d := by
  unfold normalWriteDisk sparesClearStage
  rw [runStage_preserve]
  · unfold normalGlobalParityStage
    apply runStage_spec isData
    · intro d' hd' y hy hcc
      exact globalP_not_isData d' (List.mem_range.mp hd') (hcc ▸ hy)
    · intro d' hd' dk1 dk2 hagree
      exact globalParityContents_congr status _ d' (List.mem_range.mp hd') dk1 dk2 hagree
    · exact range11_globalP_nodup
    · exact List.mem_range.mpr hd
  · intro s hs hcc
    simp only [allSpares, dboxSpares, List.mem_flatMap, List.mem_range,
      List.mem_cons, List.mem_singleton] at hs
    obtain ⟨d', hd', hs⟩ := hs
    rcases hs with rfl | rfl | h
    · rw [globalP] at hcc; simp only [id] at hcc; omega
    · rw [globalP] at hcc; simp only [id] at hcc; omega
    · cases h

/-- C5: after a Normal-mode write, each Dbox's weighted global parity
drive holds, per chunk slot and byte, the XOR fold over the online data
drives of the Dbox of `(byte * weight) mod 256`, with
`weight = (drive_id mod 255) + 1` and the product exact (taken widened
in uint16, it cannot overflow) before the modulo. -/
theorem C5_weighted_global_parity (status : Nat → Bool) (data : Buf)
    (dk : Disk) (hcompleted : availableDrives status ≠ [])
    (d k b : Nat) (hd : d < 11)
    (hk : k < chunksPerDrive status (data.1 / chunkSize)) (hb : b < chunkSize) :
    normalWriteDisk status data dk (globalP d) k b =
      xorFold (((dboxData d).filter status).map
        (fun e => normalWriteDisk status data dk e k b * (e % 255 + 1) % 256)) := by
  rw [normalWriteDisk_globalP status data dk d hd]
  unfold globalParityContents
  rw [if_pos hk]
  congr 1
  apply List.map_congr_left
  intro e he
  have hD : isData e := dboxData_isData d hd e (List.mem_of_mem_filter he)
  rw [localStage_data_drive status _ _ e hD]
  rw [congrFun (congrFun (normalWriteDisk_data_drive status data dk e hD) k) b]

set_option maxRecDepth 40000 in
/-- C5 witness: concrete write (all drives online, one chunk of 5-bytes),
Dbox 0, chunk 0, byte 0. -/
theorem C5_weighted_global_parity_witness :
    availableDrives (fun _ => true) ≠ [] ∧
    normalWriteDisk (fun _ => true) (4096, fun _ => 5)
        (fun _ _ _ => 0) (globalP 0) 0 0 =
      xorFold (((dboxData 0).filter (fun _ => true)).map
        (fun e => normalWriteDisk (fun _ => true) (4096, fun _ => 5)
          (fun _ _ _ => 0) e 0 0 * (e % 255 + 1) % 256)) :=
  ⟨by decide,
   C5_weighted_global_parity (fun _ => true) (4096, fun _ => 5) (fun _ _ _ => 0)
     (by decide) 0 0 0 (by decide) (by decide) (by decide)⟩

/-! ## Single parity recomputations (`_calculate_local_parity_group`,
`_calculate_global_parity_dbox`) as standalone drive rewrites, as invoked
by the write pass and by `rebuild_drives` (the latter with
`chunks_per_drive = drive_size // chunk_size`). -/

/-- `_calculate_local_parity_group`: one call, rewriting the group's
parity drive from the current state. -/
def calculateLocalParityGroup (status : Nat → Bool) (cpd : Nat)
    (p : Nat × Nat) (dk : Disk) : Disk :=
  writeDrive dk (localP p) (localParityContents status cpd dk p)

/-- `_calculate_global_parity_dbox`: one call, rewriting the Dbox's
global parity drive from the current state. -/
def calculateGlobalParityDbox (status : Nat → Bool) (cpd : Nat)
    (d : Nat) (dk : Disk) : Disk :=
  writeDrive dk (globalP d) (globalParityContents status cpd dk d)

/-- C7: every parity recomputation (local group and Dbox-global alike)
folds over exactly the currently online data drives of the group or Dbox:
the parity byte written is the XOR fold over the online drives only, and
it is unchanged if the contents of the offline (excluded) drives change —
an offline drive is not a zero-filled participant. -/
theorem C7_parity_excludes_offline (status : Nat → Bool) (cpd : Nat)
    (p : Nat × Nat) (d : Nat) (dk dk' : Disk) (k b : Nat) (hk : k < cpd) :
    (calculateLocalParityGroup status cpd p dk (localP p) k b =
      xorFold (((groupData p).filter status).map (fun e => dk e k b))) ∧
    ((∀ e ∈ groupData p, status e = true → ∀ k' b', dk e k' b' = dk' e k' b') →
      calculateLocalParityGroup status cpd p dk (localP p) k b =
        calculateLocalParityGroup status cpd p dk' (localP p) k b) ∧
    (calculateGlobalParityDbox status cpd d dk (globalP d) k b =
      xorFold (((dboxData d).filter status).map
        (fun e => dk e k b * (e % 255 + 1) % 256))) ∧
    ((∀ e ∈ dboxData d, status e = true → ∀ k' b', dk e k' b' = dk' e k' b') →
      calculateGlobalParityDbox status cpd d dk (globalP d) k b =
        calculateGlobalParityDbox status cpd d dk' (globalP d) k b) := by
  have hloc : ∀ dk0 : Disk, calculateLocalParityGroup status cpd p dk0 (localP p) k b =
      xorFold (((groupData p).filter status).map (fun e => dk0 e k b)) := by
    intro dk0
    unfold calculateLocalParityGroup writeDrive
    rw [if_pos rfl]
    unfold localParityContents
    rw [if_pos hk]
  have hglo : ∀ dk0 : Disk, calculateGlobalParityDbox status cpd d dk0 (globalP d) k b =
      xorFold (((dboxData d).filter status).map
        (fun e => dk0 e k b * (e % 255 + 1) % 256)) := by
    intro dk0
    unfold calculateGlobalParityDbox writeDrive
    rw [if_pos rfl]
    unfold globalParityContents
    rw [if_pos hk]
  refine ⟨hloc dk, ?_, hglo dk, ?_⟩
  · intro hagree
    rw [hloc dk, hloc dk']
    congr 1
    apply List.map_congr_left
    intro e he
    rcases List.mem_filter.mp he with ⟨he1, he2⟩
    exact hagree e he1 he2 k b
  · intro hagree
    rw [hglo dk, hglo dk']
    congr 1
    apply List.map_congr_left
    intro e he
    rcases List.mem_filter.mp he with ⟨he1, he2⟩
    rw [hagree e he1 he2 k b]

/-- C7 witness: group (0,0) and Dbox 0 with drive 0 offline; the second
state gives drive 0 different contents, the parities agree regardless. -/
theorem C7_parity_excludes_offline_witness :
    (calculateLocalParityGroup (fun e => e != 0) 256 (0, 0) (fun _ _ _ => 3)
        (localP (0, 0)) 0 0 =
      xorFold (((groupData (0, 0)).filter (fun e => e != 0)).map
        (fun _ => 3))) ∧
    (calculateLocalParityGroup (fun e => e != 0) 256 (0, 0) (fun _ _ _ => 3)
        (localP (0, 0)) 0 0 =
      calculateLocalParityGroup (fun e => e != 0) 256 (0, 0)
        (fun e _ _ => if e == 0 then 7 else 3) (localP (0, 0)) 0 0) ∧
    (calculateGlobalParityDbox (fun e => e != 0) 256 0 (fun _ _ _ => 3)
        (globalP 0) 0 0 =
      xorFold (((dboxData 0).filter (fun e => e != 0)).map
        (fun e => 3 * (e % 255 + 1) % 256))) ∧
    (calculateGlobalParityDbox (fun e => e != 0) 256 0 (fun _ _ _ => 3)
        (globalP 0) 0 0 =
      calculateGlobalParityDbox (fun e => e != 0) 256 0
        (fun e _ _ => if e == 0 then 7 else 3) (globalP 0) 0 0) := by
  have h := C7_parity_excludes_offline (fun e => e != 0) 256 (0, 0) 0
    (fun _ _ _ => 3) (fun e _ _ => if e == 0 then 7 else 3) 0 0 (by decide)
  refine ⟨h.1, h.2.1 ?_, h.2.2.1, h.2.2.2 ?_⟩
  · intro e he hse k' b'
    have hne : (e == 0) = false := by
      simp only [bne_iff_ne, ne_eq] at hse
      simpa using hse
    show (3 : Nat) = if (e == 0) = true then 7 else 3
    rw [hne]
    simp
  · intro e he hse k' b'
    have hne : (e == 0) = false := by
      simp only [bne_iff_ne, ne_eq] at hse
      simpa using hse
    show (3 : Nat) = if (e == 0) = true then 7 else 3
    rw [hne]
    simp

/-! ## Rebuilding a data drive (`_rebuild_data_drive`, VDSimm2-5-26)

The failed drive is rewritten in full: for each of the
`drive_size // chunk_size` slots, the parity chunk of the drive's group is
read (unconditionally) and XOR-folded with the chunks of every other
online data drive of the group. -/

/-- Chunk contents `_rebuild_data_drive` writes to the failed drive. -/
def rebuildDataDriveContents (dk : Disk) (D : Nat) (p : Nat × Nat)
    (status : Nat → Bool) : Nat → Nat → Nat :=
  fun k b => if k < slotsPerDrive then
    xorFold (dk (localP p) k b ::
      ((groupData p).filter (fun e => e != D && status e)).map
        (fun e => dk e k b))
  else 0

/-- `_rebuild_data_drive`: rewrite failed drive `D` of group `p`. -/
def rebuildDataDrive (dk : Disk) (D : Nat) (p : Nat × Nat)
    (status : Nat → Bool) : Disk :=
  writeDrive dk D (rebuildDataDriveContents dk D p status)

/-- C2: if exactly one data drive `D` of a group is offline while the
group's local parity drive and all its other data drives are online, and
the parity drive holds the group XOR (as an earlier write left it),
then `_rebuild_data_drive` reproduces `D`'s contents byte for byte. -/
theorem C2_rebuild_restores_data_drive (dk : Disk) (status : Nat → Bool)
    (d g D : Nat) (hd : d < 11) (hg : g < 3) (hD : D ∈ groupData (d, g))
    (hDoff : status D = false) (hPon : status (localP (d, g)) = true)
    (hothers : ∀ e ∈ groupData (d, g), e ≠ D → status e = true)
    (hparity : ∀ k < slotsPerDrive, ∀ b < chunkSize,
      dk (localP (d, g)) k b =
        xorFold ((groupData (d, g)).map (fun e => dk e k b)))
    (k b : Nat) (hk : k < slotsPerDrive) (hb : b < chunkSize) :
    rebuildDataDrive dk D (d, g) status D k b = dk D k b := by
  unfold rebuildDataDrive writeDrive
  rw [if_pos rfl]
  unfold rebuildDataDriveContents
  rw [if_pos hk]
  have hfilter : (groupData (d, g)).filter (fun e => e != D && status e) =
      (groupData (d, g)).filter (fun e => e != D) := by
    apply List.filter_congr
    intro e he
    by_cases heD : e = D
    · subst heD
      simp
    · rw [hothers e he heD]
      simp
  rw [hfilter, xorFold_cons, hparity k hk b hb,
    xorFold_map_split (groupData (d, g)) (fun e => dk e k b) D
      (groupData_nodup (d, g)) hD]
  rw [Nat.xor_assoc, Nat.xor_self, Nat.xor_zero]

/-- C2 witness: the all-zero pool with drive 0 offline (group 0 of
Dbox 0, parity drive 38 and drives 1–12 online); rebuilding reproduces
byte 0 of chunk 0 of drive 0. -/
theorem C2_rebuild_restores_data_drive_witness :
    rebuildDataDrive (fun _ _ _ => 0) 0 (0, 0) (fun e => e != 0) 0 0 0 =
      (fun _ _ _ => (0 : Nat)) 0 0 0 :=
  C2_rebuild_restores_data_drive (fun _ _ _ => 0) (fun e => e != 0) 0 0 0
    (by decide) (by decide) (by decide) (by decide) (by decide) (by decide)
    (fun k hk b hb => (xorFold_map_zero (groupData (0, 0))).symm)
    0 0 (by decide) (by decide)

/-! ## HA-mode write (`_write_data_ha_mode`, VDSimm2-5-26)

From each Dbox the loop takes the first two data drives *by position* and
keeps the online ones (`[d for d in dbox['data_drives'][:2] if
self.drive_status[d]]`); if fewer than 18 drives result the write fails
before touching any drive, otherwise the first 18 are used and the data
is striped: the `while/for` loop writes chunk `i` at stripe
`i / 18` (byte offset `(i / 18) * chunk_size`) of drive `selected[i % 18]`,
then `_calculate_ha_parity` rewrites four parity drives. -/

/-- The first two data drives (by position) of every Dbox. -/
def haCandidates : List Nat :=
  (List.range 11).flatMap (fun d => (dboxData d).take 2)

/-- The HA selection loop: per Dbox, the online ones among the first two
data drives (the inner `[:2]` of the source is a no-op). -/
def haSelected (status : Nat → Bool) : List Nat :=
  (List.range 11).flatMap (fun d => (((dboxData d).take 2).filter status).take 2)

theorem flatMap_congr_left {α β : Type} (l : List α) (f g : α → List β)
    (h : ∀ a ∈ l, f a = g a) : l.flatMap f = l.flatMap g := by
  induction l with
  | nil => rfl
  | cons b l ih =>
    rw [List.flatMap_cons, List.flatMap_cons, h b (List.mem_cons_self b l),
      ih (fun a ha => h a (List.mem_cons_of_mem b ha))]

theorem haSelected_eq_filter (status : Nat → Bool) :
    haSelected status = haCandidates.filter status := by
  rw [haSelected, haCandidates, List.filter_flatMap]
  apply flatMap_congr_left
  intro d hd
  apply List.take_of_length_le
  calc (((dboxData d).take 2).filter status).length
      ≤ ((dboxData d).take 2).length := List.length_filter_le _ _
    _ ≤ 2 := by rw [List.length_take]; omega

theorem haCandidates_nodup : haCandidates.Nodup := by decide

theorem haSelected_nodup (status : Nat → Bool) : (haSelected status).Nodup := by
  rw [haSelected_eq_filter]
  exact haCandidates_nodup.filter status

theorem mem_haCandidates_mod : ∀ x ∈ haCandidates, x % 44 < 2 := by decide

/-- Write one chunk-sized slot of one drive
(`f.seek(stripe_index * chunk_size); f.write(chunk_data)`). -/
def writeChunkSlot (dk : Disk) (e k : Nat) (c : Nat → Nat) : Disk :=
  fun e' k' => if e' = e ∧ k' = k then c else dk e' k'

/-- The HA striping loop.  The source's `while chunk_index < num_chunks`
over `for drive_id in selected_drives` visits chunk indices 0,1,2,… in
order, writing chunk `i` to drive `sel[i % len(sel)]` at stripe
`i / len(sel)`; we fold over the chunk indices directly. -/
def haDataWrite (sel : List Nat) (data : Buf) (numChunks : Nat)
    (dk : Disk) : Disk :=
  (List.range numChunks).foldl (fun dk i =>
    writeChunkSlot dk (sel.getD (i % sel.length) 0) (i / sel.length)
      (fun b => dataChunkByte data i b)) dk

/-- Stripe contents `_calculate_ha_parity` writes to HA local parity
drive `idx` (XOR over 9 of the 18 selected drives). -/
def haLocalParityContents (sel : List Nat) (idx numStripes : Nat)
    (dk : Disk) : Nat → Nat → Nat :=
  fun s b => if s < numStripes then
    xorFold (((sel.drop (idx * 9)).take 9).map (fun e => dk e s b)) else 0

/-- Stripe contents `_calculate_ha_parity` writes to an HA global parity
drive (XOR over all selected drives). -/
def haGlobalParityContents (sel : List Nat) (numStripes : Nat)
    (dk : Disk) : Nat → Nat → Nat :=
  fun s b => if s < numStripes then
    xorFold (sel.map (fun e => dk e s b)) else 0

/-- `_calculate_ha_parity`: local parity to the first local-parity drive
of Dboxes 0 and 1, global parity to the global-parity drives of
Dboxes 2 and 3. -/
def haParityStage (sel : List Nat) (numStripes : Nat) (dk : Disk) : Disk :=
  let dk1 := writeDrive dk (localP (0, 0)) (haLocalParityContents sel 0 numStripes dk)
  let dk2 := writeDrive dk1 (localP (1, 0)) (haLocalParityContents sel 1 numStripes dk1)
  let dk3 := writeDrive dk2 (globalP 2) (haGlobalParityContents sel numStripes dk2)
  writeDrive dk3 (globalP 3) (haGlobalParityContents sel numStripes dk3)

/-- `_write_data_ha_mode`: fail (touching nothing) when fewer than 18
drives are selected, else stripe the data over the first 18 selected
drives and recompute the HA parities.  Returns (success, disk, selected). -/
def writeDataHaMode (status : Nat → Bool) (data : Buf) (dk : Disk) :
    Bool × Disk × List Nat :=
  if (haSelected status).length < 18 then (false, dk, haSelected status)
  else
    (true,
     haParityStage ((haSelected status).take 18)
       ((data.1 / chunkSize + 17) / 18)
       (haDataWrite ((haSelected status).take 18) data (data.1 / chunkSize) dk),
     (haSelected status).take 18)

theorem getD_of_lt {α : Type} [Inhabited α] (l : List α) (n : Nat) (d : α)
    (h : n < l.length) : l.getD n d = l[n] := by
  rw [List.getD_eq_getElem?_getD, List.getElem?_eq_getElem h]
  rfl

/-- Placement in the HA striping loop: after writing chunks `[0, m)`,
chunk `i < m` sits at stripe `i / n` of drive `sel[i % n]`. -/
theorem haDataWrite_placement (sel : List Nat) (data : Buf) (dk : Disk)
    (hnd : sel.Nodup) (hpos : 0 < sel.length) (m i b : Nat) (hi : i < m) :
    haDataWrite sel data m dk (sel.getD (i % sel.length) 0)
      (i / sel.length) b = dataChunkByte data i b := by
  induction m with
  | zero => omega
  | succ m ih =>
    unfold haDataWrite
    rw [List.range_succ, List.foldl_append, List.foldl_cons, List.foldl_nil]
    show writeChunkSlot (haDataWrite sel data m dk)
        (sel.getD (m % sel.length) 0) (m / sel.length)
        (fun b => dataChunkByte data m b)
        (sel.getD (i % sel.length) 0) (i / sel.length) b = _
    by_cases him : i = m
    · subst him
      unfold writeChunkSlot
      rw [if_pos ⟨rfl, rfl⟩]
    · unfold writeChunkSlot
      rw [if_neg, ih (by omega)]
      rintro ⟨h1, h2⟩
      apply him
      have him' : i % sel.length < sel.length := Nat.mod_lt _ hpos
      have hmm' : m % sel.length < sel.length := Nat.mod_lt _ hpos
      rw [getD_of_lt _ _ _ him', getD_of_lt _ _ _ hmm'] at h1
      have hrem := (List.Nodup.getElem_inj_iff hnd).mp h1
      have hi2 := Nat.div_add_mod i sel.length
      have hm2 := Nat.div_add_mod m sel.length
      rw [← hi2, ← hm2, h2, hrem]

theorem haParityStage_preserve (sel : List Nat) (ns : Nat) (dk : Disk)
    (x : Nat) (h1 : x ≠ localP (0, 0)) (h2 : x ≠ localP (1, 0))
    (h3 : x ≠ globalP 2) (h4 : x ≠ globalP 3) :
    haParityStage sel ns dk x = dk x := by
  unfold haParityStage writeDrive
  rw [if_neg h4, if_neg h3, if_neg h2, if_neg h1]

/-- C8: in an HA-mode write over the 18 selected drives, chunk `i` of the
input lands at stripe index `i / 18` (byte offset `(i / 18) * chunk_size`)
within the drive at position `i % 18` of the selected list — striped, not
contiguous per-drive ranges. -/
theorem C8_ha_stripe_placement (status : Nat → Bool) (data : Buf)
    (dk : Disk) (h18 : 18 ≤ (haSelected status).length) (i b : Nat)
    (hi : i < data.1 / chunkSize) (hb : b < chunkSize) :
    (writeDataHaMode status data dk).2.1
        (((haSelected status).take 18).getD (i % 18) 0) (i / 18) b =
      dataChunkByte data i b := by
  have hlen : ((haSelected status).take 18).length = 18 := by
    rw [List.length_take]; omega
  have hmem : ∀ x ∈ (haSelected status).take 18, x % 44 < 2 := by
    intro x hx
    apply mem_haCandidates_mod
    have hx1 : x ∈ haSelected status := List.mem_of_mem_take hx
    rw [haSelected_eq_filter] at hx1
    exact List.mem_of_mem_filter hx1
  rw [writeDataHaMode, if_neg (by omega)]
  show haParityStage ((haSelected status).take 18) _
      (haDataWrite ((haSelected status).take 18) data (data.1 / chunkSize) dk)
      (((haSelected status).take 18).getD (i % 18) 0) (i / 18) b = _
  have he : ((haSelected status).take 18).getD (i % 18) 0 ∈
      (haSelected status).take 18 := by
    rw [getD_of_lt _ _ _ (by omega)]
    exact List.getElem_mem _
  have hemod : ((haSelected status).take 18).getD (i % 18) 0 % 44 < 2 :=
    hmem _ he
  rw [haParityStage_preserve]
  · have hnd : ((haSelected status).take 18).Nodup :=
      (haSelected_nodup status).sublist (List.take_sublist 18 _)
    have := haDataWrite_placement ((haSelected status).take 18) data dk hnd
      (by omega) (data.1 / chunkSize) i b hi
    rw [hlen] at this
    exact this
  · intro h; rw [h, localP] at hemod; omega
  · intro h; rw [h, localP] at hemod; omega
  · intro h; rw [h, globalP] at hemod; omega
  · intro h; rw [h, globalP] at hemod; omega

/-- C8 witness: all drives online, two input chunks; chunk 1 lands on the
drive at position 1 of the selected list, stripe 0. -/
theorem C8_ha_stripe_placement_witness :
    (writeDataHaMode (fun _ => true) (8192, fun _ => 7) (fun _ _ _ => 0)).2.1
        (((haSelected (fun _ => true)).take 18).getD (1 % 18) 0) (1 / 18) 0 =
      dataChunkByte (8192, fun _ => 7) 1 0 :=
  C8_ha_stripe_placement (fun _ => true) (8192, fun _ => 7) (fun _ _ _ => 0)
    (by decide) 1 0 (by decide) (by decide)

/-- Modelled from the spec's words for comparison: "selects exactly the
first two online data drives from each fault domain" — per Dbox, filter
the data drives by status first, then take the first two. -/
def haSelectedSpec (status : Nat → Bool) : List Nat :=
  (List.range 11).flatMap (fun d => ((dboxData d).filter status).take 2)

/-- C6 counterexample: with only drive 0 offline, the code's selection
takes the first two data drives of Dbox 0 *by position* and keeps the
online one (drive 1 alone), whereas the claimed rule "first two online
data drives of each domain" would select drives 1 and 2; drive 2 is
never selected by the code. -/
theorem C6_selection_counterexample :
    (haSelected (fun e => e != 0)).take 18 ≠
        (haSelectedSpec (fun e => e != 0)).take 18 ∧
      2 ∈ haSelectedSpec (fun e => e != 0) ∧
      2 ∉ haSelected (fun e => e != 0) := by decide

/-- C6 (amended): the HA write selects, from each Dbox, the online drives
among its first two data drives by position, concatenated in Dbox order.
If fewer than 18 result the write fails with the insufficient-redundancy
error, touching no drive; if the first two data drives of each of the
first 9 of the 11 Dboxes are online, at least 18 are available, the write
proceeds and exactly the first 18 are selected. -/
theorem C6_ha_selection_amended (status : Nat → Bool) (data : Buf)
    (dk : Disk) :
    ((haSelected status).length < 18 →
      writeDataHaMode status data dk = (false, dk, haSelected status)) ∧
    ((∀ d, d < 9 → status (44 * d) = true ∧ status (44 * d + 1) = true) →
      18 ≤ (haSelected status).length ∧
      (writeDataHaMode status data dk).1 = true ∧
      (writeDataHaMode status data dk).2.2 = (haSelected status).take 18 ∧
      ((writeDataHaMode status data dk).2.2).length = 18) := by
  constructor
  · intro hlt
    rw [writeDataHaMode, if_pos hlt]
  · intro h
    have hinner : ∀ d, d < 9 →
        (((dboxData d).take 2).filter status).take 2 = [44 * d, 44 * d + 1] := by
      intro d hd
      have ht : (dboxData d).take 2 = [44 * d, 44 * d + 1] := rfl
      rw [ht]
      have hfil : List.filter status [44 * d, 44 * d + 1] =
          [44 * d, 44 * d + 1] := by
        apply List.filter_eq_self.mpr
        intro x hx
        rcases List.mem_cons.mp hx with rfl | hx'
        · exact (h d hd).1
        · rcases List.mem_cons.mp hx' with rfl | hx''
          · exact (h d hd).2
          · cases hx''
      rw [hfil]
      rfl
    have hsplit : List.range 11 = List.range 9 ++ [9, 10] := by decide
    have hfirst : (List.range 9).flatMap
        (fun d => (((dboxData d).take 2).filter status).take 2) =
        [0, 1, 44, 45, 88, 89, 132, 133, 176, 177, 220, 221,
         264, 265, 308, 309, 352, 353] := by
      rw [flatMap_congr_left _ _ (fun d => [44 * d, 44 * d + 1])
        (fun d hd => hinner d (List.mem_range.mp hd))]
      decide
    have h18 : 18 ≤ (haSelected status).length := by
      rw [haSelected, hsplit, List.flatMap_append, List.length_append, hfirst]
      simp
    refine ⟨h18, ?_, ?_, ?_⟩
    · rw [writeDataHaMode, if_neg (by omega)]
    · rw [writeDataHaMode, if_neg (by omega)]
    · rw [writeDataHaMode, if_neg (by omega)]
      show ((haSelected status).take 18).length = 18
      rw [List.length_take]
      omega

/-- C6 witness: with every drive online the write succeeds and selects
exactly 18 drives. -/
theorem C6_ha_selection_amended_witness :
    18 ≤ (haSelected (fun _ => true)).length ∧
    (writeDataHaMode (fun _ => true) (4096, fun _ => 9) (fun _ _ _ => 0)).1 = true ∧
    (writeDataHaMode (fun _ => true) (4096, fun _ => 9) (fun _ _ _ => 0)).2.2 =
      (haSelected (fun _ => true)).take 18 ∧
    ((writeDataHaMode (fun _ => true) (4096, fun _ => 9) (fun _ _ _ => 0)).2.2).length = 18 :=
  (C6_ha_selection_amended (fun _ => true) (4096, fun _ => 9)
    (fun _ _ _ => 0)).2 (fun d hd => ⟨rfl, rfl⟩)

/-! ## `write_files` (VDSimm2-5-26)

Each input file is prefixed with a header
(`struct.pack('I', len(name)) + name + struct.pack('Q', size)`, x86
little-endian) and concatenated; `stored_file_data` / `stored_file_name`
are set *before* the capacity check; the check compares the combined
length against `get_storage_stats()['available'] = total - used`, where
`used` is the length of the just-stored buffer and `total` counts all
data drives (online or not; 18 drives' worth in HA mode). -/

inductive WriteResult where
  | ok
  | errNoFiles
  | errCapacity
  | errNoDrives
  | errHaRedundancy
deriving DecidableEq

/-- The mutable pool fields `write_files` touches. -/
structure PoolState where
  stored : Option Buf
  storedName : Option Buf
  haMode : Bool
  disk : Disk

/-- `struct.pack('I', n)`: 4 bytes, little-endian. -/
def encodeU32 (n : Nat) : Buf := (4, fun i => n / 256 ^ i % 256)

/-- `struct.pack('Q', n)`: 8 bytes, little-endian. -/
def encodeU64 (n : Nat) : Buf := (8, fun i => n / 256 ^ i % 256)

/-- One file's contribution: header (name length, name, size) + data. -/
def fileRecord (f : Buf × Buf) : Buf :=
  bufAppend (bufAppend (bufAppend (encodeU32 f.1.1) f.1) (encodeU64 f.2.1)) f.2

/-- `combined_data`: concatenation of all file records. -/
def combinedBuf (files : List (Buf × Buf)) : Buf :=
  files.foldl (fun acc f => bufAppend acc (fileRecord f)) (0, fun _ => 0)

/-- The bytes of the string "combined_files.dat". -/
def combinedFilesNameBuf : Buf :=
  (18, fun i => [99, 111, 109, 98, 105, 110, 101, 100, 95, 102, 105,
    108, 101, 115, 46, 100, 97, 116].getD i 0)

/-- `stored_file_name`: the single input's name, else "combined_files.dat". -/
def chooseName (files : List (Buf × Buf)) : Buf :=
  if files.length = 1 then
    (files.getD 0 ((0, fun _ => 0), (0, fun _ => 0))).1
  else combinedFilesNameBuf

/-- `get_storage_stats` used space: `len(stored_file_data)` under Python
truthiness (`if self.stored_file_data:` - `None` and `b''` count as 0). -/
def usedSpace (stored : Option Buf) : Nat :=
  match stored with
  | none => 0
  | some b => if b.1 = 0 then 0 else b.1

theorem usedSpace_some (b : Buf) :
    usedSpace (some b) = if b.1 = 0 then 0 else b.1 := rfl

/-- `get_storage_stats` total capacity: all data drives (regardless of
status) in Normal mode, 18 drives' worth in HA mode. -/
def totalCapacity (haMode : Bool) : Nat :=
  if haMode then 18 * driveSize else allDataDrives.length * driveSize

/-- Length after zero-padding up to a chunk boundary. -/
def paddedLen (n : Nat) : Nat := (n + chunkSize - 1) / chunkSize * chunkSize

/-- `combined_data.ljust(padded_size, b'\x00')`. -/
def paddedBuf (c : Buf) : Buf := (paddedLen c.1, fun i => bufGet c i)

/-- What the claim compares against: capacity of the currently online
data drives (this is NOT what the code uses). -/
def onlineDataCapacity (status : Nat → Bool) : Nat :=
  (availableDrives status).length * driveSize

/-- `write_files`. -/
def writeFiles (files : List (Buf × Buf)) (status : Nat → Bool)
    (st : PoolState) : WriteResult × PoolState :=
  if files.isEmpty then (WriteResult.errNoFiles, st)
  else if ((combinedBuf files).1 : Int) >
      (totalCapacity st.haMode : Int) - (usedSpace (some (combinedBuf files)) : Int) then
    (WriteResult.errCapacity,
     ⟨some (combinedBuf files), some (chooseName files), st.haMode, st.disk⟩)
  else if st.haMode then
    (if (writeDataHaMode status (paddedBuf (combinedBuf files)) st.disk).1 then
       WriteResult.ok else WriteResult.errHaRedundancy,
     ⟨some (combinedBuf files), some (chooseName files), st.haMode,
      (writeDataHaMode status (paddedBuf (combinedBuf files)) st.disk).2.1⟩)
  else
    (if (writeDataNormalMode status (paddedBuf (combinedBuf files)) st.disk).1 then
       WriteResult.ok else WriteResult.errNoDrives,
     ⟨some (combinedBuf files), some (chooseName files), st.haMode,
      (writeDataNormalMode status (paddedBuf (combinedBuf files)) st.disk).2⟩)

/-- The capacity check rejects exactly when twice the combined size
exceeds the configured total capacity (the subtracted `used` already
contains the new buffer). -/
theorem writeFiles_reject_iff (files : List (Buf × Buf)) (status : Nat → Bool)
    (st : PoolState) (hne : files ≠ []) :
    (writeFiles files status st).1 = WriteResult.errCapacity ↔
      2 * (combinedBuf files).1 > totalCapacity st.haMode := by
  have hne' : files.isEmpty = false := by
    cases files with
    | nil => cases hne rfl
    | cons f fs => rfl
  rw [writeFiles, hne']
  simp only [Bool.false_eq_true, if_false]
  by_cases hc : ((combinedBuf files).1 : Int) >
      (totalCapacity st.haMode : Int) - (usedSpace (some (combinedBuf files)) : Int)
  · rw [if_pos hc]
    simp only [true_iff]
    rw [usedSpace_some] at hc
    by_cases hz : (combinedBuf files).1 = 0
    · rw [if_pos hz] at hc
      omega
    · rw [if_neg hz] at hc
      omega
  · rw [if_neg hc]
    rw [usedSpace_some] at hc
    have hcap : ¬ 2 * (combinedBuf files).1 > totalCapacity st.haMode := by
      by_cases hz : (combinedBuf files).1 = 0
      · rw [if_pos hz] at hc
        omega
      · rw [if_neg hz] at hc
        omega
    rw [iff_false_intro hcap]
    cases hha : st.haMode with
    | false =>
      simp only [Bool.false_eq_true, if_false]
      cases hb : (writeDataNormalMode status (paddedBuf (combinedBuf files)) st.disk).1 with
      | false => simp [hb]
      | true => simp [hb]
    | true =>
      simp only [if_true]
      cases hb : (writeDataHaMode status (paddedBuf (combinedBuf files)) st.disk).1 with
      | false => simp [hb]
      | true => simp [hb]

/-- When the capacity check rejects, the returned state has the original
drive contents but the freshly mutated stored-file metadata. -/
theorem writeFiles_reject_state (files : List (Buf × Buf)) (status : Nat → Bool)
    (st : PoolState)
    (hrej : (writeFiles files status st).1 = WriteResult.errCapacity) :
    (writeFiles files status st).2 =
      ⟨some (combinedBuf files), some (chooseName files), st.haMode, st.disk⟩ := by
  by_cases hne : files.isEmpty
  · rw [writeFiles, if_pos hne] at hrej ⊢
    cases hrej
  · rw [writeFiles, if_neg hne] at hrej ⊢
    by_cases hc : ((combinedBuf files).1 : Int) >
        (totalCapacity st.haMode : Int) - (usedSpace (some (combinedBuf files)) : Int)
    · rw [if_pos hc]
    · rw [if_neg hc] at hrej ⊢
      cases hha : st.haMode with
      | false =>
        rw [hha] at hrej
        simp only [Bool.false_eq_true, if_false] at hrej ⊢
        cases hb : (writeDataNormalMode status (paddedBuf (combinedBuf files)) st.disk).1 with
        | false => rw [hb] at hrej; simp at hrej
        | true => rw [hb] at hrej; simp at hrej
      | true =>
        rw [hha] at hrej
        simp only [if_true] at hrej ⊢
        cases hb : (writeDataHaMode status (paddedBuf (combinedBuf files)) st.disk).1 with
        | false => rw [hb] at hrej; simp at hrej
        | true => rw [hb] at hrej; simp at hrej

/-- C9: `write_files` replaces the stored-file metadata before the
capacity check: a call rejected for insufficient capacity returns the
error with all drive contents unchanged but with `stored_file_data` and
`stored_file_name` already replaced, and the `available` figure it
compares against has already had the new buffer's size subtracted — it
rejects exactly when twice the combined size exceeds the total capacity. -/
theorem C9_metadata_mutated_before_check (files : List (Buf × Buf))
    (status : Nat → Bool) (st : PoolState) (hne : files ≠ []) :
    ((writeFiles files status st).1 = WriteResult.errCapacity ↔
      2 * (combinedBuf files).1 > totalCapacity st.haMode) ∧
    ((writeFiles files status st).1 = WriteResult.errCapacity →
      (writeFiles files status st).2.disk = st.disk ∧
      (writeFiles files status st).2.stored = some (combinedBuf files) ∧
      (writeFiles files status st).2.storedName = some (chooseName files)) := by
  refine ⟨writeFiles_reject_iff files status st hne, fun hrej => ?_⟩
  rw [writeFiles_reject_state files status st hrej]
  exact ⟨rfl, rfl, rfl⟩

/-- C9 witness: one 18 MiB file on an HA-mode pool (total 18 MiB):
rejected, drives untouched, metadata replaced. -/
def c9files : List (Buf × Buf) := [((1, fun _ => 97), (18874368, fun _ => 0))]

def c9pool : PoolState := ⟨none, none, true, fun _ _ _ => 0⟩

set_option maxRecDepth 40000 in
theorem C9_metadata_mutated_before_check_witness :
    (writeFiles c9files (fun _ => true) c9pool).1 = WriteResult.errCapacity ∧
    (writeFiles c9files (fun _ => true) c9pool).2.disk = c9pool.disk ∧
    (writeFiles c9files (fun _ => true) c9pool).2.stored =
      some (combinedBuf c9files) ∧
    (writeFiles c9files (fun _ => true) c9pool).2.storedName =
      some (chooseName c9files) := by
  have h := C9_metadata_mutated_before_check c9files (fun _ => true) c9pool
    (by unfold c9files; exact List.cons_ne_nil _ _)
  have hrej := h.1.mpr (by decide)
  exact ⟨hrej, h.2 hrej⟩

/-- C3 counterexample inputs: every data drive except drive 0 offline
(non-data drives online), Normal mode, one 2 MiB file.  The padded input
(513 chunks) exceeds the single online data drive's capacity (1 MiB),
yet the write succeeds and rewrites drive 0 (byte 0 becomes the first
header byte, 1). -/
def c3status : Nat → Bool := fun e => decide (38 ≤ e % 44) || e == 0

def c3files : List (Buf × Buf) := [((1, fun _ => 97), (2097152, fun _ => 65))]

def c3pool : PoolState := ⟨none, none, false, fun _ _ _ => 0⟩

set_option maxRecDepth 40000 in
/-- C3 counterexample: the padded size exceeds the capacity of the
currently online data drives, yet the write does not fail — it returns
success and modifies drive contents. -/
theorem C3_capacity_counterexample :
    paddedLen (combinedBuf c3files).1 > onlineDataCapacity c3status ∧
    (writeFiles c3files c3status c3pool).1 = WriteResult.ok ∧
    (writeFiles c3files c3status c3pool).2.disk 0 0 0 = 1 ∧
    c3pool.disk 0 0 0 = 0 := by
  refine ⟨by decide, by decide, by decide, rfl⟩

/-- C3 (amended): in Normal mode the capacity check compares against the
total capacity of ALL data drives — online status is ignored — with the
new buffer's size already counted as used, so it rejects exactly when
twice the combined size exceeds that total; when it does reject, it does
so before any write and no drive's contents are modified. -/
theorem C3_capacity_check_amended (files : List (Buf × Buf))
    (status : Nat → Bool) (st : PoolState) (hne : files ≠ [])
    (hmode : st.haMode = false) :
    ((writeFiles files status st).1 = WriteResult.errCapacity ↔
      2 * (combinedBuf files).1 > allDataDrives.length * driveSize) ∧
    ((writeFiles files status st).1 = WriteResult.errCapacity →
      (writeFiles files status st).2.disk = st.disk) := by
  have h1 := writeFiles_reject_iff files status st hne
  rw [totalCapacity, hmode] at h1
  simp only [Bool.false_eq_true, if_false] at h1
  refine ⟨h1, fun hrej => ?_⟩
  rw [writeFiles_reject_state files status st hrej]

/-- C3 amended-theorem witness: a 418 MiB + 1 byte file is rejected and
no drive is modified. -/
def c3wfiles : List (Buf × Buf) := [((1, fun _ => 97), (438304768, fun _ => 0))]

set_option maxRecDepth 40000 in
theorem C3_capacity_check_amended_witness :
    (writeFiles c3wfiles c3status c3pool).1 = WriteResult.errCapacity ∧
    (writeFiles c3wfiles c3status c3pool).2.disk = c3pool.disk := by
  have h := C3_capacity_check_amended c3wfiles c3status c3pool
    (by unfold c3wfiles; exact List.cons_ne_nil _ _) rfl
  have hrej := h.1.mpr (by decide)
  exact ⟨hrej, h.2 hrej⟩

/-! ## Integrity check (`check_data_integrity`)

Both the VDSimm2-5-26 and the VDATASIM-v2.1 variants scan the offline
drives per Dbox/Dnode and flag it vulnerable from the maximum per-group
count of offline data drives; v2.1 additionally flags a Dnode whose
maximum is exactly 2 when one of its local-parity drives is offline.
Both functions only read `drive_status` (they are embedded as pure
functions of it) and mutate nothing. -/

/-- `offline_drives = [i for i, status in enumerate(...) if not status]`. -/
def offlineList (status : Nat → Bool) : List Nat :=
  (List.range 484).filter (fun e => !status e)

/-- `dbox_failures = [d for d in offline_drives if d in dbox['all_drives']]`. -/
def dboxFailures (status : Nat → Bool) (d : Nat) : List Nat :=
  (offlineList status).filter (fun e => decide (e ∈ dboxAll d))

/-- `sum(1 for d in group['data_drives'] if not self.drive_status[d])`. -/
def groupOfflineCount (status : Nat → Bool) (p : Nat × Nat) : Nat :=
  ((groupData p).filter (fun e => !status e)).length

/-- `max_group_failures` accumulated over the Dbox's three groups. -/
def maxGroupFailures (status : Nat → Bool) (d : Nat) : Nat :=
  (List.range 3).foldl (fun m g => max m (groupOfflineCount status (d, g))) 0

/-- Dboxes flagged vulnerable by VDSimm2-5-26 (`max_group_failures > 2`,
for Dboxes with at least one offline drive). -/
def vulnerableDboxes2526 (status : Nat → Bool) : List Nat :=
  (List.range 11).filter (fun d =>
    !(dboxFailures status d).isEmpty && decide (2 < maxGroupFailures status d))

/-- `check_data_integrity` of VDSimm2-5-26:
(recoverable, vulnerable Dbox ids). -/
def checkDataIntegrity2526 (status : Nat → Bool) : Bool × List Nat :=
  if (offlineList status).isEmpty then (true, [])
  else ((vulnerableDboxes2526 status).isEmpty, vulnerableDboxes2526 status)

/-- Offline local-parity drives of Dnode `d` (v2.1's
`local_parity_failures`). -/
def localParityFailures (status : Nat → Bool) (d : Nat) : List Nat :=
  (dboxLocalParity d).filter (fun e => !status e)

/-- Dnodes flagged vulnerable by VDATASIM-v2.1 (`max > 2`, or `max == 2`
with a local-parity failure). -/
def vulnerableDnodes21 (status : Nat → Bool) : List Nat :=
  (List.range 11).filter (fun d =>
    !(dboxFailures status d).isEmpty &&
      (decide (2 < maxGroupFailures status d) ||
        (maxGroupFailures status d == 2 && !(localParityFailures status d).isEmpty)))

/-- `check_data_integrity` of VDATASIM-v2.1. -/
def checkDataIntegrity21 (status : Nat → Bool) : Bool × List Nat :=
  if (offlineList status).isEmpty then (true, [])
  else ((vulnerableDnodes21 status).isEmpty, vulnerableDnodes21 status)

theorem maxGroupFailures_eq (status : Nat → Bool) (d : Nat) :
    maxGroupFailures status d =
      max (max (groupOfflineCount status (d, 0)) (groupOfflineCount status (d, 1)))
        (groupOfflineCount status (d, 2)) := by
  show max (max (max 0 _) _) _ = _
  rw [Nat.zero_max]

theorem dboxFailures_ne_nil_of_group (status : Nat → Bool) (d g : Nat)
    (hd : d < 11) (hg : g < 3) (hpos : 0 < groupOfflineCount status (d, g)) :
    dboxFailures status d ≠ [] := by
  unfold groupOfflineCount at hpos
  rw [List.length_pos] at hpos
  obtain ⟨e, he⟩ := List.exists_mem_of_ne_nil _ hpos
  rcases List.mem_filter.mp he with ⟨he1, he2⟩
  have heD : isData e := groupData_isData (d, g) ((mem_allGroups _).mpr ⟨hd, hg⟩) e he1
  have hedb : 44 * d ≤ e ∧ e < 44 * d + 44 := by
    rw [mem_groupData] at he1
    omega
  apply List.ne_nil_of_mem (a := e)
  rw [dboxFailures, List.mem_filter, offlineList, List.mem_filter, List.mem_range]
  refine ⟨⟨heD.1, he2⟩, ?_⟩
  rw [decide_eq_true_eq, dboxAll, mem_range'_iff]
  omega

theorem dboxFailures_ne_nil_of_parity (status : Nat → Bool) (d : Nat)
    (hd : d < 11) (hpar : localParityFailures status d ≠ []) :
    dboxFailures status d ≠ [] := by
  obtain ⟨e, he⟩ := List.exists_mem_of_ne_nil _ hpar
  rcases List.mem_filter.mp he with ⟨he1, he2⟩
  rw [dboxLocalParity, mem_range'_iff] at he1
  apply List.ne_nil_of_mem (a := e)
  rw [dboxFailures, List.mem_filter, offlineList, List.mem_filter, List.mem_range]
  refine ⟨⟨by omega, he2⟩, ?_⟩
  rw [decide_eq_true_eq, dboxAll, mem_range'_iff]
  omega

/-- C4 (amended): VDSimm2-5-26 flags a Dbox vulnerable exactly when its
maximum per-group offline-data count exceeds 2; VDATASIM-v2.1 flags a
Dnode also when that maximum equals 2 and one of its local-parity drives
is offline.  In both variants `recoverable` is false iff the vulnerable
list is nonempty; neither check mutates anything (they are functions of
the status alone). -/
theorem C4_integrity_check_amended (status : Nat → Bool) (d : Nat)
    (hd : d < 11) :
    (d ∈ vulnerableDboxes2526 status ↔ 2 < maxGroupFailures status d) ∧
    (d ∈ vulnerableDnodes21 status ↔
      (2 < maxGroupFailures status d ∨
        (maxGroupFailures status d = 2 ∧ localParityFailures status d ≠ []))) ∧
    ((checkDataIntegrity2526 status).1 = false ↔
      (checkDataIntegrity2526 status).2 ≠ []) ∧
    ((checkDataIntegrity21 status).1 = false ↔
      (checkDataIntegrity21 status).2 ≠ []) := by
  have hmax3 : 2 < maxGroupFailures status d → dboxFailures status d ≠ [] := by
    intro h2
    rw [maxGroupFailures_eq] at h2
    rcases lt_max_iff.mp h2 with h3 | h3
    · rcases lt_max_iff.mp h3 with h4 | h4
      · exact dboxFailures_ne_nil_of_group status d 0 hd (by omega) (by omega)
      · exact dboxFailures_ne_nil_of_group status d 1 hd (by omega) (by omega)
    · exact dboxFailures_ne_nil_of_group status d 2 hd (by omega) (by omega)
  have hmax2 : maxGroupFailures status d = 2 →
      localParityFailures status d ≠ [] → dboxFailures status d ≠ [] :=
    fun _ hpar => dboxFailures_ne_nil_of_parity status d hd hpar
  refine ⟨?_, ?_, ?_, ?_⟩
  · rw [vulnerableDboxes2526, List.mem_filter, List.mem_range]
    simp only [Bool.and_eq_true, decide_eq_true_eq, Bool.not_eq_true',
      List.isEmpty_eq_false]
    constructor
    · rintro ⟨-, -, h⟩
      exact h
    · intro h2
      exact ⟨hd, hmax3 h2, h2⟩
  · rw [vulnerableDnodes21, List.mem_filter, List.mem_range]
    simp only [Bool.and_eq_true, Bool.or_eq_true, decide_eq_true_eq,
      Bool.not_eq_true', List.isEmpty_eq_false, beq_iff_eq]
    constructor
    · rintro ⟨-, -, h | ⟨h4, h5⟩⟩
      · exact Or.inl h
      · exact Or.inr ⟨h4, h5⟩
    · intro h2
      rcases h2 with h3 | ⟨h3, h4⟩
      · exact ⟨hd, hmax3 h3, Or.inl h3⟩
      · exact ⟨hd, hmax2 h3 h4, Or.inr ⟨h3, h4⟩⟩
  · rw [checkDataIntegrity2526]
    by_cases hoff : (offlineList status).isEmpty
    · rw [if_pos hoff]
      constructor
      · intro h
        cases h
      · intro h
        cases h rfl
    · rw [if_neg hoff]
      dsimp only
      rw [List.isEmpty_eq_false]
  · rw [checkDataIntegrity21]
    by_cases hoff : (offlineList status).isEmpty
    · rw [if_pos hoff]
      constructor
      · intro h
        cases h
      · intro h
        cases h rfl
    · rw [if_neg hoff]
      dsimp only
      rw [List.isEmpty_eq_false]

/-- A status with drives 0, 1 (two data drives of group 0 of Dbox 0) and
38 (that group's local parity drive) offline. -/
def c4status : Nat → Bool := fun e => !(e == 0 || e == 1 || e == 38)

set_option maxRecDepth 40000 in
/-- C4 counterexample: with two data drives of one group plus its local
parity drive offline, v2.1 flags Dnode 0 vulnerable and reports
unrecoverable although the maximum per-group offline count is 2, not
more than 2 (VDSimm2-5-26, for contrast, reports recoverable). -/
theorem C4_threshold_counterexample :
    0 ∈ vulnerableDnodes21 c4status ∧
    maxGroupFailures c4status 0 = 2 ∧
    (checkDataIntegrity21 c4status).1 = false ∧
    (checkDataIntegrity2526 c4status).1 = true := by decide

set_option maxRecDepth 40000 in
/-- C4 witness: the amended characterization at Dbox 0 under `c4status`. -/
theorem C4_integrity_check_amended_witness :
    (0 ∈ vulnerableDboxes2526 c4status ↔ 2 < maxGroupFailures c4status 0) ∧
    (0 ∈ vulnerableDnodes21 c4status ↔
      (2 < maxGroupFailures c4status 0 ∨
        (maxGroupFailures c4status 0 = 2 ∧ localParityFailures c4status 0 ≠ []))) ∧
    ((checkDataIntegrity2526 c4status).1 = false ↔
      (checkDataIntegrity2526 c4status).2 ≠ []) ∧
    ((checkDataIntegrity21 c4status).1 = false ↔
      (checkDataIntegrity21 c4status).2 ≠ []) :=
  C4_integrity_check_amended c4status 0 (by decide)

/-! ## `rebuild_drives` (VDSimm2-5-26)

For each requested drive that is offline, dispatch on `get_drive_type`:
a data drive is rebuilt from its local group (`_rebuild_data_drive`,
which also reports the drives it read: the group's parity drive once per
chunk and every other online data drive of the group); a local-parity or
global-parity drive is recomputed (reads reported as the full data-drive
list); spares get nothing.  `bring_online` then flips the drive's status.
The returned read-set is `list(set(...))`, modelled as `dedup`. -/

/-- `get_drive_type`: scan the Dboxes for the drive's role. -/
def getDriveType (e : Nat) : String :=
  ((List.range 11).findSome? (fun d =>
    if e ∈ dboxData d then some "Data"
    else if e ∈ dboxLocalParity d then some "Local Parity"
    else if e = globalP d then some "Global Parity"
    else if e ∈ dboxSpares d then some "Hot Spare"
    else none)).getD "Unknown"

/-- `drives_read` accumulated by `_rebuild_data_drive`: per scanned chunk
slot, the parity drive and each other online data drive of the group;
returned deduplicated (`list(set(drives_read))`). -/
def rebuildDataDriveReads (D : Nat) (p : Nat × Nat)
    (status : Nat → Bool) : List Nat :=
  ((List.range slotsPerDrive).foldl (fun acc _ =>
    acc ++ (localP p :: (groupData p).filter (fun e => e != D && status e)))
    []).dedup

/-- The status map after one drive is processed with `bring_online`. -/
def statusAfter (bringOnline : Bool) (status : Nat → Bool) (D : Nat) :
    Nat → Bool :=
  if bringOnline then (fun e => if e = D then true else status e) else status

/-- One iteration of the `rebuild_drives` loop, acting on the
(reads-so-far, disk, status) state. -/
def rebuildStep (bringOnline : Bool) (s : List Nat × Disk × (Nat → Bool))
    (D : Nat) : List Nat × Disk × (Nat → Bool) :=
  if s.2.2 D then s
  else if getDriveType D = "Data" then
    match (List.range 3).find? (fun g => decide (D ∈ groupData (D / 44, g))) with
    | some g => (s.1 ++ rebuildDataDriveReads D (D / 44, g) s.2.2,
                 rebuildDataDrive s.2.1 D (D / 44, g) s.2.2,
                 statusAfter bringOnline s.2.2 D)
    | none => (s.1, s.2.1, statusAfter bringOnline s.2.2 D)
  else if getDriveType D = "Local Parity" then
    match (List.range 3).find? (fun g => localP (D / 44, g) == D) with
    | some g => (s.1 ++ groupData (D / 44, g),
                 calculateLocalParityGroup s.2.2 slotsPerDrive (D / 44, g) s.2.1,
                 statusAfter bringOnline s.2.2 D)
    | none => (s.1, s.2.1, statusAfter bringOnline s.2.2 D)
  else if getDriveType D = "Global Parity" then
    (s.1 ++ dboxData (D / 44),
     calculateGlobalParityDbox s.2.2 slotsPerDrive (D / 44) s.2.1,
     statusAfter bringOnline s.2.2 D)
  else (s.1, s.2.1, statusAfter bringOnline s.2.2 D)

/-- `rebuild_drives`: fold the per-drive step over the requested list and
return the deduplicated read-set with the final disk and status. -/
def rebuildDrives (failed : List Nat) (bringOnline : Bool)
    (status : Nat → Bool) (dk : Disk) : List Nat × Disk × (Nat → Bool) :=
  ((failed.foldl (rebuildStep bringOnline) ([], dk, status)).1.dedup,
   (failed.foldl (rebuildStep bringOnline) ([], dk, status)).2)

theorem findSome?_eq_of_unique {α β : Type} (l : List α) (f : α → Option β)
    (a : α) (v : β) (ha : a ∈ l) (hfa : f a = some v)
    (hothers : ∀ b ∈ l, b ≠ a → f b = none) :
    l.findSome? f = some v := by
  induction l with
  | nil => cases ha
  | cons c l ih =>
    by_cases hca : c = a
    · subst hca
      rw [List.findSome?_cons, hfa]
    · rw [List.findSome?_cons, hothers c (List.mem_cons_self c l) hca]
      have ha' : a ∈ l := by
        rcases List.mem_cons.mp ha with h | h
        · cases hca h.symm
        · exact h
      exact ih ha' (fun b hb => hothers b (List.mem_cons_of_mem c hb))

theorem getDriveType_data (D : Nat) (hD : D < 484) (hData : D % 44 < 38) :
    getDriveType D = "Data" := by
  rw [getDriveType]
  rw [findSome?_eq_of_unique (List.range 11) _ (D / 44) "Data"
    (List.mem_range.mpr (by omega)) ?_ ?_]
  · rfl
  · rw [if_pos]
    rw [dboxData, mem_range'_iff]
    omega
  · intro d hd hne
    rw [List.mem_range] at hd
    have hdd : d ≠ D / 44 := hne
    rw [if_neg, if_neg, if_neg, if_neg]
    · rw [dboxSpares]
      intro h
      rcases List.mem_cons.mp h with h1 | h1
      · omega
      · rcases List.mem_cons.mp h1 with h2 | h2
        · omega
        · cases h2
    · rw [globalP]
      omega
    · rw [dboxLocalParity, mem_range'_iff]
      omega
    · rw [dboxData, mem_range'_iff]
      omega

theorem find?_group_eq (D : Nat) (hD : D < 484) (hData : D % 44 < 38) :
    (List.range 3).find? (fun g => decide (D ∈ groupData (D / 44, g))) =
      some (D % 44 / 13) := by
  have hr : List.range 3 = [0, 1, 2] := rfl
  rw [hr]
  by_cases h0 : D % 44 < 13
  · have hg : D % 44 / 13 = 0 := by omega
    rw [hg]
    apply List.find?_cons_of_pos
    rw [decide_eq_true_eq, mem_groupData]
    simp only []
    omega
  · by_cases h1 : D % 44 < 26
    · have hg : D % 44 / 13 = 1 := by omega
      rw [hg]
      rw [List.find?_cons_of_neg]
      · apply List.find?_cons_of_pos
        rw [decide_eq_true_eq, mem_groupData]
        simp only []
        omega
      · rw [decide_eq_true_eq, mem_groupData]
        simp only []
        omega
    · have hg : D % 44 / 13 = 2 := by omega
      rw [hg]
      rw [List.find?_cons_of_neg, List.find?_cons_of_neg]
      · apply List.find?_cons_of_pos
        rw [decide_eq_true_eq, mem_groupData]
        simp only []
        omega
      · rw [decide_eq_true_eq, mem_groupData]
        simp only []
        omega
      · rw [decide_eq_true_eq, mem_groupData]
        simp only []
        omega

theorem mem_foldl_append {α : Type} (n : Nat) (c a : List α) (x : α) :
    x ∈ (List.range n).foldl (fun acc _ => acc ++ c) a ↔
      x ∈ a ∨ (0 < n ∧ x ∈ c) := by
  induction n with
  | zero => simp
  | succ n ih =>
    rw [List.range_succ, List.foldl_append, List.foldl_cons, List.foldl_nil,
      List.mem_append, ih]
    constructor
    · rintro ((h | ⟨-, hc⟩) | hc)
      · exact Or.inl h
      · exact Or.inr ⟨Nat.succ_pos n, hc⟩
      · exact Or.inr ⟨Nat.succ_pos n, hc⟩
    · rintro (h | ⟨-, hc⟩)
      · exact Or.inl (Or.inl h)
      · exact Or.inr hc

theorem mem_rebuildDataDriveReads (D x : Nat) (p : Nat × Nat)
    (status : Nat → Bool) :
    x ∈ rebuildDataDriveReads D p status ↔
      (x = localP p ∨ (x ∈ groupData p ∧ x ≠ D ∧ status x = true)) := by
  rw [rebuildDataDriveReads, List.mem_dedup, mem_foldl_append]
  constructor
  · rintro (h | ⟨-, h⟩)
    · cases h
    · rcases List.mem_cons.mp h with rfl | h'
      · exact Or.inl rfl
      · rcases List.mem_filter.mp h' with ⟨h1, h2⟩
        rw [Bool.and_eq_true, bne_iff_ne] at h2
        exact Or.inr ⟨h1, h2.1, h2.2⟩
  · rintro (rfl | ⟨h1, h2, h3⟩)
    · exact Or.inr ⟨by decide, List.mem_cons_self _ _⟩
    · refine Or.inr ⟨by decide, List.mem_cons_of_mem _ (List.mem_filter.mpr ⟨h1, ?_⟩)⟩
      rw [Bool.and_eq_true, bne_iff_ne]
      exact ⟨h2, h3⟩

/-- C10: `rebuild_drives` called on exactly one offline data drive `D`
reads exactly the local-parity drive of `D`'s group together with every
other online data drive of that group; in particular it never reads the
failed drive itself. -/
theorem C10_rebuild_reads_exactly (D x : Nat) (status : Nat → Bool)
    (dk : Disk) (hD : D < 484) (hData : D % 44 < 38)
    (hOff : status D = false) :
    (x ∈ (rebuildDrives [D] true status dk).1 ↔
      (x = localP (D / 44, D % 44 / 13) ∨
        (x ∈ groupData (D / 44, D % 44 / 13) ∧ x ≠ D ∧ status x = true))) ∧
    D ∉ (rebuildDrives [D] true status dk).1 := by
  have hreads : (rebuildDrives [D] true status dk).1 =
      ([] ++ rebuildDataDriveReads D (D / 44, D % 44 / 13) status).dedup := by
    rw [rebuildDrives, List.foldl_cons, List.foldl_nil, rebuildStep]
    dsimp only
    rw [hOff]
    simp only [Bool.false_eq_true, if_false]
    rw [getDriveType_data D hD hData, if_pos rfl, find?_group_eq D hD hData]
  rw [hreads, List.nil_append, List.mem_dedup, mem_rebuildDataDriveReads]
  constructor
  · exact Iff.rfl
  · rw [List.mem_dedup, mem_rebuildDataDriveReads]
    rintro (h | ⟨-, h, -⟩)
    · rw [localP] at h
      simp only [] at h
      omega
    · exact h rfl

/-- C10 witness: drive 5 offline (all others online): the set read while
rebuilding it contains parity drive 38 and not drive 5 itself. -/
theorem C10_rebuild_reads_exactly_witness :
    ((38 : Nat) ∈ (rebuildDrives [5] true (fun e => e != 5) (fun _ _ _ => 0)).1 ↔
      ((38 : Nat) = localP (5 / 44, 5 % 44 / 13) ∨
        ((38 : Nat) ∈ groupData (5 / 44, 5 % 44 / 13) ∧ (38 : Nat) ≠ 5 ∧
          (fun e => e != 5) 38 = true))) ∧
    (5 : Nat) ∉ (rebuildDrives [5] true (fun e => e != 5) (fun _ _ _ => 0)).1 :=
  C10_rebuild_reads_exactly 5 38 (fun e => e != 5) (fun _ _ _ => 0)
    (by decide) (by decide) (by decide)
